import Mathlib

/-! Verification of the Fundamentus FII screening pipeline (src/app.py).

The development shallowly embeds the data pipeline of app.py: raw HTML-table
rows, as pandas.read_html delivers them, are modelled by RawRow; the scraping
and cleaning function buscar_dados_fundamentus by a function on lists of rows;
the filtering block building df_filtrado and the per-segment aggregation
analise_segmento as pure functions over lists.

Modelling choices, referenced from the individual definitions:
- Machine floats are modelled by rationals; every numeric computation of the
  program (parsing, comparison, counting, summing, averaging) is exact at the
  magnitudes involved, so no rounding behaviour is lost.
- pandas.DataFrame.sort_values(by=k, ascending=False) goes through pandas
  nargsort, which reverses the column AND the index array, runs an ascending
  argsort, and reverses the resulting indexer again.  The double reversal
  cancels on ties, so with a stable underlying argsort equal-key rows keep
  their input order.  The model sort_values_desc mirrors this exactly:
  List.reverse, a stable ascending insertion sort, List.reverse.  It is
  bit-exact for kind=stable / mergesort at any size and for the default
  kind=quicksort below the 16 element cutoff under which numpy argsort runs
  a plain (stable) insertion sort; above that cutoff the default kind leaves
  the tie order an unspecified detail of introsort, and the stable model is
  the determinate behaviour.
- pandas.DataFrame.groupby(k) with the default sort=True enumerates the
  groups in ascending order of the key; for string keys that is the
  code-point lexicographic order, modelled by lexLt / sortedUnique.
- A Python exception escaping a row-level operation is modelled by
  Except.error; the try/except of app.py lines 17 to 58 is the function
  refreshPipeline, which converts any such error into an empty dataset plus
  an error message, and is total, so no fault crosses the pipeline boundary.
-/

deriving instance DecidableEq for Except

namespace Fundamentus

open List

/-- One raw table cell as it comes out of pandas.read_html: either text, an
already parsed number, or a missing value (NaN). -/
inductive RawCell where
  | text (s : String)
  | num (q : ℚ)
  | missing
deriving DecidableEq

/-- Numeric value of a list of decimal digit characters, read left to right. -/
def natOfDigits (l : List Char) : ℕ :=
  l.foldl (fun a c => a * 10 + (c.toNat - 48)) 0

/-- Core of pythonFloat: parses digits, optionally followed by a dot and more
digits, into a rational.  The value is built with mkRat so that the whole
function evaluates inside the kernel. -/
def pythonFloatCore (l : List Char) : Option ℚ :=
  let ip := l.takeWhile Char.isDigit
  let rest := l.dropWhile Char.isDigit
  match rest with
  | [] => if ip.isEmpty then none else some (mkRat (natOfDigits ip) 1)
  | '.' :: fp =>
    if fp.all Char.isDigit && !(ip.isEmpty && fp.isEmpty) then
      some (mkRat (natOfDigits (ip ++ fp)) ((10 : ℕ) ^ fp.length))
    else none
  | _ => none

/-- pythonFloat models the Python builtin float() on the fragment of its
grammar reachable in this program: an optional sign, an integer part and an
optional fractional part in plain decimal notation (no exponent, no inf or
nan words, no surrounding whitespace).  It returns none exactly when
float(...) would raise ValueError on such a string. -/
def pythonFloat (l : List Char) : Option ℚ :=
  match l with
  | '-' :: t => (pythonFloatCore t).map (fun q => -q)
  | '+' :: t => pythonFloatCore t
  | t => pythonFloatCore t

/-- pyReplace models the Python str.replace method for a single-character
pattern, the only shape used on app.py line 40: every occurrence of the
character c is replaced by the string t. -/
def pyReplace (s : String) (c : Char) (t : String) : String :=
  ⟨(s.data.map (fun x => if x = c then t.data else [x])).flatten⟩

/-- clean_percent is the inner function of app.py lines 38 to 42:

    if isinstance(value, str):
        cleaned_value = value.replace(dot, empty).replace(comma, dot).replace(percent, empty)
        return float(cleaned_value) if cleaned_value else np.nan
    return value

A textual cell has all dots removed, then all commas turned into dots, then
all percent signs removed; an empty remainder becomes NaN (modelled none); a
nonempty remainder goes through float(), whose ValueError is modelled by
Except.error.  A non-string cell is passed through unchanged (a number stays
a number, NaN stays NaN). -/
def clean_percent : RawCell → Except Unit (Option ℚ)
  | .text s =>
    let cleaned := pyReplace (pyReplace (pyReplace s '.' "") ',' ".") '%' ""
    if cleaned.data.isEmpty then .ok none
    else
      match pythonFloat cleaned.data with
      | some q => .ok (some q)
      | none => .error ()
  | .num q => .ok (some q)
  | .missing => .ok none

/-- to_numeric models pandas.to_numeric(column, errors=coerce) on one cell
(app.py lines 47 and 48): unparseable text becomes missing instead of
raising. -/
def to_numeric : RawCell → Option ℚ
  | .text s => pythonFloat s.data
  | .num q => some q
  | .missing => none

/-- One row of the raw 13-column table, already renamed to the canonical
column names of app.py lines 29 to 33 (the renaming is positional).  TICKER
and SEGMENTO are the two textual columns; every other column is a raw cell. -/
structure RawRow where
  TICKER : String
  SEGMENTO : String
  COTACAO : RawCell
  FFO_YIELD : RawCell
  DIVIDEND_YIELD : RawCell
  P_VP : RawCell
  VALOR_MERCADO : RawCell
  LIQUIDEZ : RawCell
  QTD_IMOVEIS : RawCell
  PRECO_M2 : RawCell
  ALUGUEL_M2 : RawCell
  CAP_RATE : RawCell
  VACANCIA_MEDIA : RawCell
deriving DecidableEq

/-- One row after the type conversions of app.py lines 36 to 48: the four
percentage columns and the two coerced columns hold an optional rational
(none models NaN); the remaining columns are untouched raw cells. -/
structure CleanRow where
  TICKER : String
  SEGMENTO : String
  COTACAO : RawCell
  FFO_YIELD : Option ℚ
  DIVIDEND_YIELD : Option ℚ
  P_VP : Option ℚ
  VALOR_MERCADO : RawCell
  LIQUIDEZ : Option ℚ
  QTD_IMOVEIS : RawCell
  PRECO_M2 : RawCell
  ALUGUEL_M2 : RawCell
  CAP_RATE : Option ℚ
  VACANCIA_MEDIA : Option ℚ
deriving DecidableEq

/-- processRow applies the conversions of app.py lines 36 to 48 to one row:
clean_percent on the four percentage columns, in the order of the cols_percent
list, and to_numeric coercion on P_VP and LIQUIDEZ.  A float() exception in
any percentage cell aborts with Except.error; the coercions never fail.
(The program applies clean_percent column by column over the whole frame; an
exception surfaces iff some cell raises, so the row-by-row order used here is
observationally equivalent.) -/
def processRow (r : RawRow) : Except Unit CleanRow :=
  (clean_percent r.DIVIDEND_YIELD).bind fun dy =>
    (clean_percent r.VACANCIA_MEDIA).bind fun vac =>
      (clean_percent r.FFO_YIELD).bind fun ffo =>
        (clean_percent r.CAP_RATE).bind fun cap =>
          .ok { TICKER := r.TICKER, SEGMENTO := r.SEGMENTO, COTACAO := r.COTACAO,
                FFO_YIELD := ffo, DIVIDEND_YIELD := dy, P_VP := to_numeric r.P_VP,
                VALOR_MERCADO := r.VALOR_MERCADO, LIQUIDEZ := to_numeric r.LIQUIDEZ,
                QTD_IMOVEIS := r.QTD_IMOVEIS, PRECO_M2 := r.PRECO_M2,
                ALUGUEL_M2 := r.ALUGUEL_M2, CAP_RATE := cap, VACANCIA_MEDIA := vac }

/-- mapExcept maps a fallible function over a list, failing as soon as any
element fails, exactly as an exception escapes a pandas apply. -/
def mapExcept (f : α → Except Unit β) : List α → Except Unit (List β)
  | [] => .ok []
  | a :: t =>
    match f a with
    | .error e => .error e
    | .ok b =>
      match mapExcept f t with
      | .error e => .error e
      | .ok bs => .ok (b :: bs)

/-- criticalPresent is the row test of df.dropna(subset=[DIVIDEND_YIELD,
P_VP, VACANCIA_MEDIA, LIQUIDEZ]) on app.py line 51. -/
def criticalPresent (r : CleanRow) : Bool :=
  r.DIVIDEND_YIELD.isSome && r.P_VP.isSome && r.VACANCIA_MEDIA.isSome && r.LIQUIDEZ.isSome

/-- liqPos is the mask df[LIQUIDEZ] > 0 of app.py line 52; a missing value
compares as false, as NaN does in pandas. -/
def liqPos (r : CleanRow) : Bool :=
  match r.LIQUIDEZ with
  | some q => decide (0 < q)
  | none => false

/-- buscar_dados_fundamentus is the body of the try block of app.py lines 17
to 54, from the point where the 13-column table has been obtained: convert
every row (processRow), then drop rows with a missing critical metric
(line 51), then drop rows with non-positive liquidity (line 52).  An
exception raised by any cell of any row escapes the whole computation. -/
def buscar_dados_fundamentus (rows : List RawRow) : Except Unit (List CleanRow) :=
  match mapExcept processRow rows with
  | .error e => .error e
  | .ok df0 => .ok ((df0.filter criticalPresent).filter liqPos)

/-- mensagemErro is the user-facing message of app.py line 57. -/
def mensagemErro (detalhe : String) : String :=
  "Erro ao buscar dados do Fundamentus. Detalhe: " ++ detalhe

/-- Outcome of the fetch and parse stage that precedes the row conversions: a
successful 13-column table, a transport failure (requests raising, the
FetchError of the spec) or a response without a conforming table
(pandas.read_html or the column assignment raising, the ParseError of the
spec).  Both failure kinds carry the exception text. -/
inductive FetchOutcome where
  | ok (rows : List RawRow)
  | fetchError (detalhe : String)
  | parseError (detalhe : String)

/-- refreshPipeline is buscar_dados_fundamentus including its try/except
wrapper (app.py lines 14 to 58): any exception, from the fetch, the parse or
a row conversion, is caught, st.error shows mensagemErro, and the empty
DataFrame is returned.  The function is total: no exception escapes it.
The exception text of a row-conversion ValueError is not modelled and is
rendered as the fixed word ValueError. -/
def refreshPipeline : FetchOutcome → List CleanRow × Option String
  | .ok rows =>
    match buscar_dados_fundamentus rows with
    | .ok df => (df, none)
    | .error _ => ([], some (mensagemErro "ValueError"))
  | .fetchError d => ([], some (mensagemErro d))
  | .parseError d => ([], some (mensagemErro d))

/-- keyLe is the ascending comparison a sort by one numeric column performs:
compare the key values of two rows. -/
def keyLe {α β : Type} [LinearOrder β] (key : α → β) : α → α → Prop :=
  fun a b => key a ≤ key b

instance {α β : Type} [LinearOrder β] (key : α → β) : DecidableRel (keyLe key) :=
  fun a b => inferInstanceAs (Decidable (key a ≤ key b))

instance {α β : Type} [LinearOrder β] (key : α → β) : IsTotal α (keyLe key) :=
  ⟨fun a b => le_total (key a) (key b)⟩

instance {α β : Type} [LinearOrder β] (key : α → β) : IsTrans α (keyLe key) :=
  ⟨fun _ _ _ hab hbc => le_trans hab hbc⟩

/-- sort_values_desc models pandas.DataFrame.sort_values(by=key,
ascending=False): pandas nargsort reverses the rows, computes an ascending
argsort, and reverses the resulting indexer again, so the two reversals
cancel on equal keys and rows with equal keys keep their input order.  The
numpy ascending argsort is modelled by a stable insertion sort (see the file
header for the exactness regime of this choice). -/
def sort_values_desc {α β : Type} [LinearOrder β] (key : α → β) (l : List α) : List α :=
  (l.reverse.insertionSort (keyLe key)).reverse

/-- dyKey reads the sort key of app.py line 118 from a row.  Every row that
reaches the sort has passed the filter mask, whose DIVIDEND_YIELD comparison
is false on a missing value, so the default 0 is never read. -/
def dyKey (r : CleanRow) : ℚ :=
  r.DIVIDEND_YIELD.getD 0

/-- FilterCriteria holds the four slider values of app.py lines 77 to 110,
under their variable names. -/
structure FilterCriteria where
  dy_min : ℚ
  pvp_max : ℚ
  vacancia_max : ℚ
  liquidez_min : ℚ
deriving DecidableEq

/-- cmpGe models a pandas column >= scalar comparison on one cell: NaN
compares false. -/
def cmpGe (o : Option ℚ) (q : ℚ) : Bool :=
  match o with
  | some v => decide (q ≤ v)
  | none => false

/-- cmpLe models a pandas column <= scalar comparison on one cell: NaN
compares false. -/
def cmpLe (o : Option ℚ) (q : ℚ) : Bool :=
  match o with
  | some v => decide (v ≤ q)
  | none => false

/-- filtroPred is the conjunction of the four masks of app.py lines 114 to
117. -/
def filtroPred (c : FilterCriteria) (r : CleanRow) : Bool :=
  cmpGe r.DIVIDEND_YIELD c.dy_min && cmpLe r.P_VP c.pvp_max &&
    cmpLe r.VACANCIA_MEDIA c.vacancia_max && cmpGe r.LIQUIDEZ c.liquidez_min

/-- df_filtrado is the filtering block of app.py lines 113 to 118: keep the
rows passing all four masks, then sort by DIVIDEND_YIELD descending. -/
def df_filtrado (df : List CleanRow) (c : FilterCriteria) : List CleanRow :=
  sort_values_desc dyKey (df.filter (filtroPred c))

/-- colMin models Series.min on the listed present values of a column (pandas
min skips NaN); 0 is a dummy for the empty case, which the program reaches
only behind the df_fii.empty guard. -/
def colMin (l : List ℚ) : ℚ :=
  match l with
  | [] => 0
  | v :: vs => vs.foldl min v

/-- colMax models Series.max on the listed present values of a column. -/
def colMax (l : List ℚ) : ℚ :=
  match l with
  | [] => 0
  | v :: vs => vs.foldl max v

/-- criteriaPadrao gives the initial value of each slider of app.py lines 77
to 110: the dataset minimum for dy_min and liquidez_min, the dataset maximum
for pvp_max and vacancia_max (the 95th-percentile cap of line 107 bounds the
slider range, not its initial value). -/
def criteriaPadrao (df : List CleanRow) : FilterCriteria :=
  { dy_min := colMin (df.filterMap (·.DIVIDEND_YIELD)),
    pvp_max := colMax (df.filterMap (·.P_VP)),
    vacancia_max := colMax (df.filterMap (·.VACANCIA_MEDIA)),
    liquidez_min := colMin (df.filterMap (·.LIQUIDEZ)) }

/-- lexLt is the code-point lexicographic strict order on character lists,
the order Python uses to compare the segment strings.  It is written on
List Char because the Mathlib order on String does not evaluate inside the
kernel. -/
def lexLt : List Char → List Char → Bool
  | [], [] => false
  | [], _ :: _ => true
  | _ :: _, [] => false
  | a :: as, b :: bs => decide (a < b) || (decide (a = b) && lexLt as bs)

/-- insertUniqueStr inserts a string into an ascending duplicate-free list of
strings, keeping it ascending and duplicate-free. -/
def insertUniqueStr (s : String) : List String → List String
  | [] => [s]
  | t :: ts =>
    if s = t then t :: ts
    else if lexLt s.data t.data then s :: t :: ts
    else t :: insertUniqueStr s ts

/-- sortedUnique lists the distinct values of a string column in ascending
code-point order: the group keys of DataFrame.groupby with its default
sort=True. -/
def sortedUnique (l : List String) : List String :=
  l.foldr insertUniqueStr []

/-- SegmentSummary is one output row of the aggregation of app.py lines 248
to 254, under the column names given in the agg call. -/
structure SegmentSummary where
  SEGMENTO : String
  FIIs_Contagem : ℕ
  DY_Medio : ℚ
  P_VP_Medio : ℚ
  Vacancia_Media : ℚ
  Liquidez_Medio : ℚ
deriving DecidableEq

/-- colMean models Series.mean over the cells of one column of a group:
pandas skips NaN cells, so the mean is over the present values (on the
datasets the program builds, the four aggregated columns have no NaN left).
The empty case yields 0 (pandas would yield NaN); the program only
aggregates nonempty groups. -/
def colMean (l : List (Option ℚ)) : ℚ :=
  let v := l.filterMap id
  v.sum / (v.length : ℚ)

/-- resumoSegmento builds the aggregation row of one segment: the group is
the subset of rows with that SEGMENTO, FIIs_Contagem counts its (always
present) tickers, and the four mean columns average the group.  This is also
the SegmentQuery restriction of the spec: the group list is the subset
sharing the segment value, in input order. -/
def resumoSegmento (df : List CleanRow) (s : String) : SegmentSummary :=
  let g := df.filter (fun r => decide (r.SEGMENTO = s))
  { SEGMENTO := s, FIIs_Contagem := g.length,
    DY_Medio := colMean (g.map (·.DIVIDEND_YIELD)),
    P_VP_Medio := colMean (g.map (·.P_VP)),
    Vacancia_Media := colMean (g.map (·.VACANCIA_MEDIA)),
    Liquidez_Medio := colMean (g.map (·.LIQUIDEZ)) }

/-- groupSummaries is df.groupby(SEGMENTO).agg(...).reset_index() of app.py
lines 248 to 254: one summary per distinct segment, enumerated in ascending
segment order (groupby default sort=True). -/
def groupSummaries (df : List CleanRow) : List SegmentSummary :=
  (sortedUnique (df.map (·.SEGMENTO))).map (resumoSegmento df)

/-- analise_segmento is the full aggregation statement of app.py lines 248
to 254, including the final sort_values(by=FIIs_Contagem, ascending=False). -/
def analise_segmento (df : List CleanRow) : List SegmentSummary :=
  sort_values_desc (fun S => S.FIIs_Contagem) (groupSummaries df)

/-- parse_percent_spec follows the words of the spec (section 4.2 step 2 and
property P1) rather than the code, for comparison with clean_percent: strip
thousands separators (the dots), convert the decimal separator (the comma)
to a dot, strip a TRAILING percent sign only, parse an empty remainder to
null, otherwise parse the remainder as a floating-point number (a remainder
float() rejects is an error, as in the code).  It differs from clean_percent
exactly on strings with a percent sign in non-trailing position, which
clean_percent also removes. -/
def parse_percent_spec : RawCell → Except Unit (Option ℚ)
  | .text s =>
    let step1 := s.data.filter (fun c => decide (c ≠ '.'))
    let step2 := step1.map (fun c => if c = ',' then '.' else c)
    let step3 :=
      match step2.getLast? with
      | some '%' => step2.dropLast
      | _ => step2
    if step3.isEmpty then .ok none
    else
      match pythonFloat step3 with
      | some q => .ok (some q)
      | none => .error ()
  | .num q => .ok (some q)
  | .missing => .ok none

/-- parse_percent_amended is the amended description of the percent parser,
changed from parse_percent_spec only where the counterexample forces it:
EVERY percent sign is stripped, wherever it occurs, not only a trailing one.
It is written with the elementwise list operations of the spec wording; the
theorem for C1 proves it equal to clean_percent, whose definition goes
through the replace chain of the code. -/
def parse_percent_amended : RawCell → Except Unit (Option ℚ)
  | .text s =>
    let step1 := s.data.filter (fun c => decide (c ≠ '.'))
    let step2 := step1.map (fun c => if c = ',' then '.' else c)
    let step3 := step2.filter (fun c => decide (c ≠ '%'))
    if step3.isEmpty then .ok none
    else
      match pythonFloat step3 with
      | some q => .ok (some q)
      | none => .error ()
  | .num q => .ok (some q)
  | .missing => .ok none

/-! Helper lemmas about the string replace chain. -/

theorem flatten_map_empty (c : Char) (l : List Char) :
    (l.map (fun x => if x = c then ([] : List Char) else [x])).flatten
      = l.filter (fun x => decide (x ≠ c)) := by
  induction l with
  | nil => rfl
  | cons x t ih => by_cases h : x = c <;> simp [h, ih]

theorem flatten_map_single (c d : Char) (l : List Char) :
    (l.map (fun x => if x = c then [d] else [x])).flatten
      = l.map (fun x => if x = c then d else x) := by
  induction l with
  | nil => rfl
  | cons x t ih => by_cases h : x = c <;> simp [h, ih]

theorem pyReplace_data_empty (s : String) (c : Char) :
    (pyReplace s c "").data = s.data.filter (fun x => decide (x ≠ c)) :=
  flatten_map_empty c s.data

theorem pyReplace_data_dot (s : String) (c : Char) :
    (pyReplace s c ".").data = s.data.map (fun x => if x = c then '.' else x) :=
  flatten_map_single c '.' s.data

theorem clean_percent_text_eq (s : String) :
    clean_percent (.text s) = parse_percent_amended (.text s) := by
  have h : (pyReplace (pyReplace (pyReplace s '.' "") ',' ".") '%' "").data
      = ((s.data.filter (fun x => decide (x ≠ '.'))).map
          (fun x => if x = ',' then '.' else x)).filter (fun x => decide (x ≠ '%')) := by
    rw [pyReplace_data_empty, pyReplace_data_dot, pyReplace_data_empty]
  simp only [clean_percent, parse_percent_amended, h]

/-! Helper lemmas about the descending sort model. -/

theorem sort_values_desc_perm {α β : Type} [LinearOrder β] (key : α → β) (l : List α) :
    sort_values_desc key l ~ l :=
  (List.reverse_perm _).trans ((List.perm_insertionSort _ l.reverse).trans (List.reverse_perm l))

theorem mem_sort_values_desc {α β : Type} [LinearOrder β] {key : α → β} {l : List α} {x : α} :
    x ∈ sort_values_desc key l ↔ x ∈ l :=
  (sort_values_desc_perm key l).mem_iff

theorem sorted_sort_values_desc {α β : Type} [LinearOrder β] (key : α → β) (l : List α) :
    (sort_values_desc key l).Pairwise (fun a b => key b ≤ key a) :=
  List.pairwise_reverse.mpr (List.sorted_insertionSort (keyLe key) l.reverse)

theorem tie_pair_preserved {α β : Type} [LinearOrder β] (key : α → β) {l : List α} {a b : α}
    (h : [a, b] <+ l) (hk : key a = key b) :
    [a, b] <+ sort_values_desc key l := by
  have h1 : [b, a] <+ l.reverse := by simpa using h.reverse
  have h2 : [b, a] <+ l.reverse.insertionSort (keyLe key) :=
    List.pair_sublist_insertionSort (le_of_eq hk.symm) h1
  simpa [sort_values_desc] using h2.reverse

/-! Helper lemmas about the lexicographic order and the group keys. -/

theorem lexLt_irrefl : ∀ l : List Char, lexLt l l = false
  | [] => rfl
  | a :: as => by simp [lexLt, lexLt_irrefl as]

theorem lexLt_ne {a b : List Char} (h : lexLt a b = true) : a ≠ b := by
  intro he
  subst he
  rw [lexLt_irrefl] at h
  cases h

theorem lexLt_total : ∀ a b : List Char, a ≠ b → lexLt a b = true ∨ lexLt b a = true
  | [], [], h => absurd rfl h
  | [], _ :: _, _ => .inl rfl
  | _ :: _, [], _ => .inr rfl
  | x :: xs, y :: ys, h => by
    rcases lt_trichotomy x y with hxy | hxy | hxy
    · left; simp [lexLt, hxy]
    · subst hxy
      have hne : xs ≠ ys := by
        intro he
        exact h (by rw [he])
      rcases lexLt_total xs ys hne with h1 | h1
      · left; simp [lexLt, h1]
      · right; simp [lexLt, h1]
    · right; simp [lexLt, hxy]

theorem lexLt_trans : ∀ a b c : List Char,
    lexLt a b = true → lexLt b c = true → lexLt a c = true
  | [], [], _, hab, _ => by simp [lexLt] at hab
  | [], _ :: _, [], _, hbc => by simp [lexLt] at hbc
  | [], _ :: _, _ :: _, _, _ => rfl
  | _ :: _, [], _, hab, _ => by simp [lexLt] at hab
  | _ :: _, _ :: _, [], _, hbc => by simp [lexLt] at hbc
  | x :: xs, y :: ys, z :: zs, hab, hbc => by
    simp only [lexLt, Bool.or_eq_true, Bool.and_eq_true, decide_eq_true_eq] at hab hbc ⊢
    rcases hab with hxy | ⟨hxy, hab⟩
    · rcases hbc with hyz | ⟨hyz, _⟩
      · exact .inl (lt_trans hxy hyz)
      · exact .inl (by rw [← hyz]; exact hxy)
    · rcases hbc with hyz | ⟨hyz, hbc⟩
      · exact .inl (by rw [hxy]; exact hyz)
      · exact .inr ⟨hxy.trans hyz, lexLt_trans xs ys zs hab hbc⟩

/-- strLt is the ascending order in which groupby enumerates segment keys. -/
def strLt (s t : String) : Prop :=
  lexLt s.data t.data = true

theorem string_data_inj {s t : String} (h : s.data = t.data) : s = t := by
  cases s
  cases t
  exact congrArg String.mk h

theorem mem_insertUniqueStr {s x : String} :
    ∀ l : List String, x ∈ insertUniqueStr s l ↔ x = s ∨ x ∈ l
  | [] => by simp [insertUniqueStr]
  | t :: ts => by
    by_cases h1 : s = t
    · subst h1
      simp only [insertUniqueStr, if_pos rfl]
      constructor
      · exact fun h => .inr h
      · rintro (rfl | h)
        · exact List.mem_cons_self _ _
        · exact h
    · by_cases h2 : lexLt s.data t.data
      · simp only [insertUniqueStr, if_neg h1, if_pos h2]
        simp [List.mem_cons]
      · simp only [insertUniqueStr, if_neg h1, if_neg h2]
        rw [List.mem_cons, mem_insertUniqueStr ts, List.mem_cons]
        tauto

theorem pairwise_insertUniqueStr {s : String} :
    ∀ {l : List String}, l.Pairwise strLt → (insertUniqueStr s l).Pairwise strLt
  | [], _ => by simp [insertUniqueStr]
  | t :: ts, hp => by
    by_cases h1 : s = t
    · subst h1
      simpa [insertUniqueStr] using hp
    · by_cases h2 : lexLt s.data t.data
      · simp only [insertUniqueStr, if_neg h1, if_pos h2]
        refine List.Pairwise.cons ?_ hp
        intro y hy
        rcases List.mem_cons.mp hy with rfl | hyts
        · exact h2
        · exact lexLt_trans _ _ _ h2 (List.rel_of_pairwise_cons hp hyts)
      · simp only [insertUniqueStr, if_neg h1, if_neg h2]
        have hts : lexLt t.data s.data = true := by
          rcases lexLt_total s.data t.data (fun hd => h1 (string_data_inj hd)) with h | h
          · exact absurd h h2
          · exact h
        refine List.Pairwise.cons ?_ (pairwise_insertUniqueStr (List.Pairwise.of_cons hp))
        intro y hy
        rcases (mem_insertUniqueStr ts).mp hy with rfl | hyts
        · exact hts
        · exact List.rel_of_pairwise_cons hp hyts

theorem mem_sortedUnique {x : String} : ∀ l : List String, x ∈ sortedUnique l ↔ x ∈ l
  | [] => Iff.rfl
  | s :: t => by
    show x ∈ insertUniqueStr s (sortedUnique t) ↔ _
    rw [mem_insertUniqueStr, mem_sortedUnique t, List.mem_cons]

theorem pairwise_sortedUnique : ∀ l : List String, (sortedUnique l).Pairwise strLt
  | [] => List.Pairwise.nil
  | _ :: t => pairwise_insertUniqueStr (pairwise_sortedUnique t)

theorem nodup_sortedUnique (l : List String) : (sortedUnique l).Nodup :=
  (pairwise_sortedUnique l).imp fun h => lexLt_ne h ∘ congrArg String.data

/-! Helper lemmas about processRow, mapExcept and buscar_dados_fundamentus. -/

theorem processRow_TICKER {r : RawRow} {c : CleanRow} (h : processRow r = .ok c) :
    c.TICKER = r.TICKER := by
  unfold processRow at h
  cases h1 : clean_percent r.DIVIDEND_YIELD <;> rw [h1] at h
  case error => simp [Except.bind] at h
  case ok dy =>
    cases h2 : clean_percent r.VACANCIA_MEDIA <;> rw [h2] at h
    case error => simp [Except.bind] at h
    case ok vac =>
      cases h3 : clean_percent r.FFO_YIELD <;> rw [h3] at h
      case error => simp [Except.bind] at h
      case ok ffo =>
        cases h4 : clean_percent r.CAP_RATE <;> rw [h4] at h
        case error => simp [Except.bind] at h
        case ok cap =>
          simp only [Except.bind, Except.ok.injEq] at h
          rw [← h]

theorem processRow_ok_of_cells {r : RawRow} {dy vac ffo cap : Option ℚ}
    (h1 : clean_percent r.DIVIDEND_YIELD = .ok dy)
    (h2 : clean_percent r.VACANCIA_MEDIA = .ok vac)
    (h3 : clean_percent r.FFO_YIELD = .ok ffo)
    (h4 : clean_percent r.CAP_RATE = .ok cap) :
    (processRow r).isOk = true := by
  unfold processRow
  rw [h1, h2, h3, h4]
  rfl

theorem mapExcept_ok_ticker : ∀ {rows : List RawRow} {l : List CleanRow},
    mapExcept processRow rows = .ok l → l.map (·.TICKER) = rows.map (·.TICKER) := by
  intro rows
  induction rows with
  | nil =>
    intro l h
    cases h
    rfl
  | cons r t ih =>
    intro l h
    unfold mapExcept at h
    cases h1 : processRow r <;> rw [h1] at h
    case error => cases h
    case ok c =>
      cases h2 : mapExcept processRow t <;> rw [h2] at h
      case error => cases h
      case ok cs =>
        cases h
        simp only [List.map_cons, ih h2, processRow_TICKER h1]

theorem mapExcept_cons (f : α → Except Unit β) (a : α) (t : List α) :
    mapExcept f (a :: t)
      = match f a, mapExcept f t with
        | .error e, _ => .error e
        | .ok _, .error e => .error e
        | .ok b, .ok bs => .ok (b :: bs) := by
  cases hfa : f a <;> cases hmt : mapExcept f t <;> simp [mapExcept, hfa, hmt]

theorem mapExcept_append (f : α → Except Unit β) (l₁ l₂ : List α) :
    mapExcept f (l₁ ++ l₂)
      = (mapExcept f l₁).bind fun a => (mapExcept f l₂).map fun b => a ++ b := by
  induction l₁ with
  | nil => cases h : mapExcept f l₂ <;> simp [mapExcept, Except.bind, Except.map, h]
  | cons x t ih =>
    rw [List.cons_append, mapExcept_cons f x (t ++ l₂), mapExcept_cons f x t, ih]
    cases hx : f x <;> cases h1 : mapExcept f t <;> cases h2 : mapExcept f l₂ <;>
      simp [hx, h1, h2, Except.bind, Except.map]

theorem buscar_ok_inv {rows : List RawRow} {out : List CleanRow}
    (h : buscar_dados_fundamentus rows = .ok out) :
    ∃ df0, mapExcept processRow rows = .ok df0
      ∧ out = (df0.filter criticalPresent).filter liqPos := by
  unfold buscar_dados_fundamentus at h
  cases hm : mapExcept processRow rows <;> rw [hm] at h
  case error => cases h
  case ok df0 =>
    cases h
    exact ⟨df0, rfl, rfl⟩

/-! Helper lemmas about column minima, maxima and means. -/

theorem foldl_min_le_init : ∀ (l : List ℚ) (a : ℚ), l.foldl min a ≤ a
  | [], _ => le_refl _
  | y :: t, a => le_trans (foldl_min_le_init t (min a y)) (min_le_left a y)

theorem foldl_min_le_mem : ∀ (l : List ℚ) (a x : ℚ), x ∈ l → l.foldl min a ≤ x
  | y :: t, a, x, hx => by
    rcases List.mem_cons.mp hx with rfl | hxt
    · exact le_trans (foldl_min_le_init t (min a x)) (min_le_right a x)
    · exact foldl_min_le_mem t (min a y) x hxt

theorem colMin_le {l : List ℚ} {x : ℚ} (hx : x ∈ l) : colMin l ≤ x := by
  cases l with
  | nil => cases hx
  | cons v vs =>
    rcases List.mem_cons.mp hx with rfl | hxt
    · exact foldl_min_le_init vs x
    · exact foldl_min_le_mem vs v x hxt

theorem init_le_foldl_max : ∀ (l : List ℚ) (a : ℚ), a ≤ l.foldl max a
  | [], _ => le_refl _
  | y :: t, a => le_trans (le_max_left a y) (init_le_foldl_max t (max a y))

theorem mem_le_foldl_max : ∀ (l : List ℚ) (a x : ℚ), x ∈ l → x ≤ l.foldl max a
  | y :: t, a, x, hx => by
    rcases List.mem_cons.mp hx with rfl | hxt
    · exact le_trans (le_max_right a x) (init_le_foldl_max t (max a x))
    · exact mem_le_foldl_max t (max a y) x hxt

theorem le_colMax {l : List ℚ} {x : ℚ} (hx : x ∈ l) : x ≤ colMax l := by
  cases l with
  | nil => cases hx
  | cons v vs =>
    rcases List.mem_cons.mp hx with rfl | hxt
    · exact init_le_foldl_max vs x
    · exact mem_le_foldl_max vs v x hxt

theorem filterMap_id_of_all_some {g : List CleanRow} {f : CleanRow → Option ℚ}
    (h : ∀ r ∈ g, (f r).isSome = true) :
    (g.map f).filterMap id = g.map fun r => (f r).getD 0 := by
  induction g with
  | nil => rfl
  | cons r t ih =>
    have hr := h r (List.mem_cons_self r t)
    cases hf : f r with
    | none => rw [hf] at hr; cases hr
    | some v =>
      simp only [List.map_cons, List.filterMap_cons, id, hf, Option.getD_some]
      rw [ih fun x hx => h x (List.mem_cons_of_mem r hx)]

theorem length_filter_split (l : List CleanRow) (p : CleanRow → Bool) :
    l.length = (l.filter p).length + (l.filter fun a => !(p a)).length :=
  List.length_eq_length_filter_add p

theorem sum_counts : ∀ (segs : List String) (df : List CleanRow), segs.Nodup →
    (∀ r ∈ df, r.SEGMENTO ∈ segs) →
    (segs.map fun s => (df.filter fun r => decide (r.SEGMENTO = s)).length).sum = df.length
  | [], df, _, hcover => by
    cases df with
    | nil => rfl
    | cons r t => cases hcover r (List.mem_cons_self r t)
  | s :: rest, df, hnd, hcover => by
    have hsplit := length_filter_split df fun r => decide (r.SEGMENTO = s)
    have hrest : ∀ t ∈ rest,
        ((df.filter fun r => !(decide (r.SEGMENTO = s))).filter
            fun r => decide (r.SEGMENTO = t)).length
          = (df.filter fun r => decide (r.SEGMENTO = t)).length := by
      intro t ht
      have hts : t ≠ s := by
        intro he
        exact (List.nodup_cons.mp hnd).1 (he ▸ ht)
      congr 1
      rw [List.filter_filter]
      apply List.filter_congr
      intro r _
      by_cases hr : r.SEGMENTO = t
      · simp [hr, hts]
      · simp [hr]
    have hcover2 : ∀ r ∈ df.filter fun r => !(decide (r.SEGMENTO = s)),
        r.SEGMENTO ∈ rest := by
      intro r hr
      rcases List.mem_filter.mp hr with ⟨hrdf, hrs⟩
      rcases List.mem_cons.mp (hcover r hrdf) with he | hmem
      · rw [he] at hrs; simp at hrs
      · exact hmem
    have ih := sum_counts rest (df.filter fun r => !(decide (r.SEGMENTO = s)))
      (List.nodup_cons.mp hnd).2 hcover2
    calc ((s :: rest).map fun t => (df.filter fun r => decide (r.SEGMENTO = t)).length).sum
        = (df.filter fun r => decide (r.SEGMENTO = s)).length
            + (rest.map fun t => (df.filter fun r => decide (r.SEGMENTO = t)).length).sum := by
          rw [List.map_cons, List.sum_cons]
      _ = (df.filter fun r => decide (r.SEGMENTO = s)).length
            + (rest.map fun t => ((df.filter fun r => !(decide (r.SEGMENTO = s))).filter
                fun r => decide (r.SEGMENTO = t)).length).sum := by
          congr 1
          apply congrArg
          exact (List.map_congr_left fun t ht => (hrest t ht).symm)
      _ = (df.filter fun r => decide (r.SEGMENTO = s)).length
            + (df.filter fun r => !(decide (r.SEGMENTO = s))).length := by rw [ih]
      _ = df.length := hsplit.symm

/-! Concrete rows used by the witnesses and counterexamples. -/

/-- rawGood is a well-formed raw row as Fundamentus serves it: percentage
cells are text with a trailing percent sign, numeric cells were already
parsed by read_html. -/
def rawGood : RawRow :=
  { TICKER := "AAAA11", SEGMENTO := "Shopping", COTACAO := .num 100,
    FFO_YIELD := .text "9%", DIVIDEND_YIELD := .text "8%", P_VP := .num 1,
    VALOR_MERCADO := .num 1000000, LIQUIDEZ := .num 50000, QTD_IMOVEIS := .num 5,
    PRECO_M2 := .missing, ALUGUEL_M2 := .missing, CAP_RATE := .text "7%",
    VACANCIA_MEDIA := .text "5%" }

/-- cleanGood is the normalized form of rawGood. -/
def cleanGood : CleanRow :=
  { TICKER := "AAAA11", SEGMENTO := "Shopping", COTACAO := .num 100,
    FFO_YIELD := some 9, DIVIDEND_YIELD := some 8, P_VP := some 1,
    VALOR_MERCADO := .num 1000000, LIQUIDEZ := some 50000, QTD_IMOVEIS := .num 5,
    PRECO_M2 := .missing, ALUGUEL_M2 := .missing, CAP_RATE := some 7,
    VACANCIA_MEDIA := some 5 }

/-- rawGoodDup shares the ticker of rawGood but differs in segment. -/
def rawGoodDup : RawRow :=
  { rawGood with SEGMENTO := "Logistica" }

/-- cleanGoodDup is the normalized form of rawGoodDup. -/
def cleanGoodDup : CleanRow :=
  { cleanGood with SEGMENTO := "Logistica" }

/-- rawGoodB is a second valid row with a distinct ticker. -/
def rawGoodB : RawRow :=
  { rawGood with TICKER := "BBBB11" }

/-- cleanGoodB is the normalized form of rawGoodB. -/
def cleanGoodB : CleanRow :=
  { cleanGood with TICKER := "BBBB11" }

/-- rawBadPct carries a non-empty unparseable percentage cell, the shape that
makes float() raise inside clean_percent. -/
def rawBadPct : RawRow :=
  { rawGood with TICKER := "CCCC11", DIVIDEND_YIELD := .text "n/d" }

/-- rawBadLiq is a valid-shape row whose liquidity is zero, so it fails the
liquidity validity rule and is dropped. -/
def rawBadLiq : RawRow :=
  { rawGood with TICKER := "DDDD11", LIQUIDEZ := .num 0 }

/-- crLogA and crShopB are two already-normalized rows with the same
dividend yield, in the segments Logistica and Shopping. -/
def crLogA : CleanRow :=
  { cleanGood with SEGMENTO := "Logistica", LIQUIDEZ := some 50000 }

/-- crShopB is the Shopping-segment partner of crLogA, with the same
dividend yield and a different ticker. -/
def crShopB : CleanRow :=
  { cleanGood with TICKER := "BBBB11", LIQUIDEZ := some 60000 }

/-- cAmplo is a criteria choice every example row passes. -/
def cAmplo : FilterCriteria :=
  { dy_min := 0, pvp_max := 100, vacancia_max := 100, liquidez_min := 1 }

/-! Claim C1: the percent parser. -/

/-- C1, counterexample.  The claim says the parser strips a TRAILING percent
sign and parses the remainder as a float.  On the textual cell percent-then-1
there is no trailing percent sign, so the described algorithm
(parse_percent_spec, written from the words of the spec) has to parse the
two-character remainder and fails; the code (clean_percent) instead removes
the percent sign wherever it stands and returns 1. -/
theorem C1_counterexample :
    clean_percent (.text "%1") = .ok (some 1)
      ∧ parse_percent_spec (.text "%1") = .error () := by
  constructor
  · decide
  · decide

/-- C1, amended: the percent parser strips the thousands-separator dots,
converts every comma to a dot, strips EVERY percent sign (not only a
trailing one), maps an empty remainder to null and parses a nonempty
remainder as a float; an already numeric cell passes through unchanged, a
missing cell stays missing.  The four concrete values of spec property P1
hold as stated. -/
theorem C1_amended_percent_parsing :
    (∀ cell : RawCell, clean_percent cell = parse_percent_amended cell)
  ∧ (∀ q : ℚ, clean_percent (.num q) = .ok (some q))
  ∧ clean_percent .missing = .ok none
  ∧ clean_percent (.text "1.234,56%") = .ok (some 1234.56)
  ∧ clean_percent (.text "12,3%") = .ok (some 12.3)
  ∧ clean_percent (.text "") = .ok none
  ∧ clean_percent (.text "0%") = .ok (some 0) := by
  refine ⟨?_, fun q => rfl, rfl, ?_, ?_, by decide, by decide⟩
  · intro cell
    cases cell with
    | text s => exact clean_percent_text_eq s
    | num q => rfl
    | missing => rfl
  · have h : (1234.56 : ℚ) = mkRat 123456 100 := by
      rw [Rat.mkRat_eq_div]
      norm_num
    rw [h]
    decide
  · have h : (12.3 : ℚ) = mkRat 123 10 := by
      rw [Rat.mkRat_eq_div]
      norm_num
    rw [h]
    decide

/-! Claim C2: validity of every normalized row. -/

/-- C2: every row surviving buscar_dados_fundamentus has DIVIDEND_YIELD,
P_VP, VACANCIA_MEDIA and LIQUIDEZ present and positive liquidity; and the
P_VP / LIQUIDEZ coercions never fail a row: whenever the four percentage
cells of a row convert, the whole row converts, whatever its P_VP and
LIQUIDEZ cells hold (to_numeric maps unparseable text to null). -/
theorem C2_row_validity :
    (∀ (rows : List RawRow) (out : List CleanRow),
        buscar_dados_fundamentus rows = .ok out →
        ∀ r ∈ out, r.DIVIDEND_YIELD.isSome = true ∧ r.P_VP.isSome = true
          ∧ r.VACANCIA_MEDIA.isSome = true ∧ ∃ q : ℚ, r.LIQUIDEZ = some q ∧ 0 < q)
  ∧ (∀ (row : RawRow) (dy vac ffo cap : Option ℚ),
        clean_percent row.DIVIDEND_YIELD = .ok dy →
        clean_percent row.VACANCIA_MEDIA = .ok vac →
        clean_percent row.FFO_YIELD = .ok ffo →
        clean_percent row.CAP_RATE = .ok cap →
        (processRow row).isOk = true) := by
  constructor
  · intro rows out h r hr
    obtain ⟨df0, _, hout⟩ := buscar_ok_inv h
    subst hout
    rcases List.mem_filter.mp hr with ⟨hr1, hliq⟩
    rcases List.mem_filter.mp hr1 with ⟨_, hcrit⟩
    simp only [criticalPresent, Bool.and_eq_true] at hcrit
    obtain ⟨⟨⟨hdy, hpvp⟩, hvac⟩, hlsome⟩ := hcrit
    refine ⟨hdy, hpvp, hvac, ?_⟩
    cases hq : r.LIQUIDEZ with
    | none => rw [hq] at hlsome; cases hlsome
    | some q =>
      refine ⟨q, rfl, ?_⟩
      unfold liqPos at hliq
      rw [hq] at hliq
      exact of_decide_eq_true hliq
  · intro row dy vac ffo cap h1 h2 h3 h4
    exact processRow_ok_of_cells h1 h2 h3 h4

/-- C2, witness at the one-row table rawGood. -/
theorem C2_witness :
    cleanGood.DIVIDEND_YIELD.isSome = true ∧ cleanGood.P_VP.isSome = true
      ∧ cleanGood.VACANCIA_MEDIA.isSome = true
      ∧ ∃ q : ℚ, cleanGood.LIQUIDEZ = some q ∧ 0 < q :=
  C2_row_validity.1 [rawGood] [cleanGood] (by decide) cleanGood (by decide)

/-! Claim C3: the filter predicate, all bounds inclusive. -/

/-- C3: a record of the dataset is in the filtered output iff its dividend
yield is at least dy_min, its price to book at most pvp_max, its vacancy at
most vacancia_max and its liquidity at least liquidez_min, all four bounds
inclusive.  (An empty result is just the value this total function takes
when no record passes; it is not an error.) -/
theorem C3_filter_membership (df : List CleanRow) (c : FilterCriteria) (r : CleanRow)
    (hr : r ∈ df) (dy pvp vac liq : ℚ)
    (hdy : r.DIVIDEND_YIELD = some dy) (hpvp : r.P_VP = some pvp)
    (hvac : r.VACANCIA_MEDIA = some vac) (hliq : r.LIQUIDEZ = some liq) :
    r ∈ df_filtrado df c
      ↔ (c.dy_min ≤ dy ∧ pvp ≤ c.pvp_max ∧ vac ≤ c.vacancia_max ∧ c.liquidez_min ≤ liq) := by
  unfold df_filtrado
  rw [mem_sort_values_desc, List.mem_filter]
  simp only [filtroPred, cmpGe, cmpLe, hdy, hpvp, hvac, hliq, Bool.and_eq_true,
    decide_eq_true_eq]
  constructor
  · rintro ⟨-, ⟨⟨h1, h2⟩, h3⟩, h4⟩
    exact ⟨h1, h2, h3, h4⟩
  · rintro ⟨h1, h2, h3, h4⟩
    exact ⟨hr, ⟨⟨h1, h2⟩, h3⟩, h4⟩

/-- C3, witness: crShopB passes cAmplo and is in the output. -/
theorem C3_witness : crShopB ∈ df_filtrado [crShopB] cAmplo :=
  (C3_filter_membership [crShopB] cAmplo crShopB (by decide) 8 1 5 60000
    rfl rfl rfl rfl).mpr (by decide)

/-! Claim C4: descending sort, stable on ties. -/

/-- C4: the output of df_filtrado is sorted by dividend yield descending,
and the sort is stable: any two surviving records with equal dividend yield
appear in the output in the same relative order they had in the input
dataset.  Pandas nargsort reverses the rows before the ascending argsort and
the indexer after it, so the two reversals cancel on ties (the model
sort_values_desc mirrors this; see its doc comment for the regime in which
the underlying argsort is stable). -/
theorem C4_sort_descending_stable (df : List CleanRow) (c : FilterCriteria) :
    (df_filtrado df c).Pairwise (fun a b => dyKey b ≤ dyKey a)
  ∧ (∀ a b : CleanRow, [a, b] <+ df →
      filtroPred c a = true → filtroPred c b = true → dyKey a = dyKey b →
      [a, b] <+ df_filtrado df c) := by
  constructor
  · exact sorted_sort_values_desc dyKey _
  · intro a b h ha hb hk
    have hf : [a, b] <+ df.filter (filtroPred c) := by
      have := h.filter (filtroPred c)
      simpa [ha, hb] using this
    exact tie_pair_preserved dyKey hf hk

/-- C4, witness: the equal-yield pair crLogA, crShopB both pass cAmplo and
keeps its input order in the filtered output. -/
theorem C4_witness : [crLogA, crShopB] <+ df_filtrado [crLogA, crShopB] cAmplo :=
  (C4_sort_descending_stable [crLogA, crShopB] cAmplo).2 crLogA crShopB
    (List.Sublist.refl _) (by decide) (by decide) rfl

/-! Claim C5: aggregate correctness. -/

/-- C5: on a dataset whose rows all carry the four critical metrics (the
invariant every Normalizer output satisfies, claim C2), analise_segmento
emits exactly one summary per segment present in the dataset; each count is
the number of rows of that segment, hence at least 1; each mean column is
the unweighted arithmetic mean of that column over exactly those rows; and
the counts sum to the dataset size. -/
theorem C5_aggregate_correct (df : List CleanRow)
    (hvalid : ∀ r ∈ df, criticalPresent r = true) :
    (((analise_segmento df).map (·.SEGMENTO)).Nodup)
  ∧ (∀ s : String, s ∈ (analise_segmento df).map (·.SEGMENTO) ↔ s ∈ df.map (·.SEGMENTO))
  ∧ (∀ S ∈ analise_segmento df,
        S.FIIs_Contagem = (df.filter fun r => decide (r.SEGMENTO = S.SEGMENTO)).length
      ∧ 1 ≤ S.FIIs_Contagem
      ∧ S.DY_Medio = ((df.filter fun r => decide (r.SEGMENTO = S.SEGMENTO)).map fun r =>
          r.DIVIDEND_YIELD.getD 0).sum / (S.FIIs_Contagem : ℚ)
      ∧ S.P_VP_Medio = ((df.filter fun r => decide (r.SEGMENTO = S.SEGMENTO)).map fun r =>
          r.P_VP.getD 0).sum / (S.FIIs_Contagem : ℚ)
      ∧ S.Vacancia_Media = ((df.filter fun r => decide (r.SEGMENTO = S.SEGMENTO)).map fun r =>
          r.VACANCIA_MEDIA.getD 0).sum / (S.FIIs_Contagem : ℚ)
      ∧ S.Liquidez_Medio = ((df.filter fun r => decide (r.SEGMENTO = S.SEGMENTO)).map fun r =>
          r.LIQUIDEZ.getD 0).sum / (S.FIIs_Contagem : ℚ))
  ∧ ((analise_segmento df).map (·.FIIs_Contagem)).sum = df.length := by
  have hperm : Perm (analise_segmento df) (groupSummaries df) :=
    sort_values_desc_perm _ _
  have hgseg : (groupSummaries df).map (·.SEGMENTO) = sortedUnique (df.map (·.SEGMENTO)) := by
    unfold groupSummaries
    rw [List.map_map]
    exact List.map_id _
  refine ⟨?_, ?_, ?_, ?_⟩
  · have hp : Perm ((analise_segmento df).map (·.SEGMENTO))
        ((groupSummaries df).map (·.SEGMENTO)) := hperm.map _
    rw [hgseg] at hp
    exact hp.nodup_iff.mpr (nodup_sortedUnique _)
  · intro s
    rw [(hperm.map (·.SEGMENTO)).mem_iff, hgseg, mem_sortedUnique]
  · intro S hS
    have hS2 : S ∈ groupSummaries df := hperm.mem_iff.mp hS
    obtain ⟨s, hs, hSeq⟩ := List.mem_map.mp hS2
    subst hSeq
    have hg : ∀ (f : CleanRow → Option ℚ), (∀ r ∈ df, (f r).isSome = true) →
        colMean ((df.filter fun r => decide (r.SEGMENTO = s)).map f)
          = (((df.filter fun r => decide (r.SEGMENTO = s)).map fun r => (f r).getD 0).sum)
              / (((df.filter fun r => decide (r.SEGMENTO = s)).length : ℕ) : ℚ) := by
      intro f hf
      simp only [colMean, filterMap_id_of_all_some fun r hr => hf r (List.mem_filter.mp hr).1,
        List.length_map]
    have hvDY : ∀ r ∈ df, r.DIVIDEND_YIELD.isSome = true := by
      intro r hr
      have hv := hvalid r hr
      simp only [criticalPresent, Bool.and_eq_true] at hv
      exact hv.1.1.1
    have hvPVP : ∀ r ∈ df, r.P_VP.isSome = true := by
      intro r hr
      have hv := hvalid r hr
      simp only [criticalPresent, Bool.and_eq_true] at hv
      exact hv.1.1.2
    have hvVAC : ∀ r ∈ df, r.VACANCIA_MEDIA.isSome = true := by
      intro r hr
      have hv := hvalid r hr
      simp only [criticalPresent, Bool.and_eq_true] at hv
      exact hv.1.2
    have hvLIQ : ∀ r ∈ df, r.LIQUIDEZ.isSome = true := by
      intro r hr
      have hv := hvalid r hr
      simp only [criticalPresent, Bool.and_eq_true] at hv
      exact hv.2
    have hcount : 1 ≤ (df.filter fun r => decide (r.SEGMENTO = s)).length := by
      rcases List.mem_map.mp ((mem_sortedUnique _).mp hs) with ⟨r, hrdf, hrs⟩
      have : r ∈ df.filter fun r => decide (r.SEGMENTO = s) :=
        List.mem_filter.mpr ⟨hrdf, by rw [hrs]; exact decide_eq_true rfl⟩
      exact List.length_pos.mpr (List.ne_nil_of_mem this)
    exact ⟨rfl, hcount, hg _ hvDY, hg _ hvPVP, hg _ hvVAC, hg _ hvLIQ⟩
  · rw [(hperm.map (·.FIIs_Contagem)).sum_eq]
    unfold groupSummaries
    rw [List.map_map]
    exact sum_counts _ df (nodup_sortedUnique _)
      fun r hr => (mem_sortedUnique _).mpr (List.mem_map_of_mem _ hr)

/-- C5, witness: on the two-segment dataset of crLogA and crShopB the counts
sum to the dataset size. -/
theorem C5_witness :
    ((analise_segmento [crLogA, crShopB]).map (·.FIIs_Contagem)).sum
      = ([crLogA, crShopB] : List CleanRow).length :=
  (C5_aggregate_correct [crLogA, crShopB] (by decide)).2.2.2

/-! Claim C6: order of the aggregate output. -/

/-- C6, counterexample.  In the input the segment Shopping appears first and
Logistica second, and the two groups have the same count; the claim says the
tied summaries keep that first-appearance order (Shopping before Logistica),
but the output lists Logistica first: groupby enumerates the groups in
ascending alphabetical order, and the descending count sort keeps tied
summaries in that groupby order, independent of where each segment first
appears in the input. -/
theorem C6_counterexample :
    (analise_segmento [crShopB, crLogA]).map (·.SEGMENTO) = ["Logistica", "Shopping"]
  ∧ (analise_segmento [crShopB, crLogA]).map (·.FIIs_Contagem) = [1, 1]
  ∧ ([crShopB, crLogA] : List CleanRow).map (·.SEGMENTO) = ["Shopping", "Logistica"] := by
  refine ⟨by decide, by decide, by decide⟩

/-- C6, amended: the summaries are ordered by count descending; the groupby
stage enumerates one summary per segment in ascending code-point
(alphabetical) order of the segment name; and two summaries with equal
count keep that groupby order in the final output — so ties follow the
ascending alphabetical order of the segment, not the order of first
appearance of the segment in the input dataset. -/
theorem C6_amended_order (df : List CleanRow) :
    (analise_segmento df).Pairwise (fun A B => B.FIIs_Contagem ≤ A.FIIs_Contagem)
  ∧ (groupSummaries df).Pairwise (fun A B => strLt A.SEGMENTO B.SEGMENTO)
  ∧ (∀ A B : SegmentSummary, [A, B] <+ groupSummaries df →
      A.FIIs_Contagem = B.FIIs_Contagem → [A, B] <+ analise_segmento df) := by
  refine ⟨sorted_sort_values_desc _ _, ?_, ?_⟩
  · unfold groupSummaries
    rw [List.pairwise_map]
    exact pairwise_sortedUnique _
  · intro A B h hk
    exact tie_pair_preserved _ h hk

/-- C6, witness: the tied pair of the counterexample keeps its groupby
(alphabetical) order Logistica before Shopping in the output, although
Shopping appears first in the input. -/
theorem C6_witness :
    [resumoSegmento [crShopB, crLogA] "Logistica", resumoSegmento [crShopB, crLogA] "Shopping"]
      <+ analise_segmento [crShopB, crLogA] := by
  have hg : groupSummaries [crShopB, crLogA]
      = [resumoSegmento [crShopB, crLogA] "Logistica",
         resumoSegmento [crShopB, crLogA] "Shopping"] := rfl
  exact (C6_amended_order [crShopB, crLogA]).2.2 _ _
    (hg ▸ List.Sublist.refl _) (by decide)

/-! Claim C7: recovery from row-level failures. -/

/-- C7, counterexample.  The claim says a row with an unparseable cell is
excluded and the remaining valid rows are still returned.  Alone, rawGood
normalizes to cleanGood; adding the row rawBadPct, whose dividend-yield cell
is the unparseable text n/d, makes the whole normalization raise, and the
pipeline then returns the EMPTY dataset: the valid row rawGood is lost, so a
single row aborted the whole operation. -/
theorem C7_counterexample :
    buscar_dados_fundamentus [rawGood, rawBadPct] = .error ()
  ∧ buscar_dados_fundamentus [rawGood] = .ok [cleanGood]
  ∧ refreshPipeline (.ok [rawGood, rawBadPct])
      = ([], some (mensagemErro "ValueError")) := by
  refine ⟨by decide, by decide, by decide⟩

/-- C7, amended: a row-level VALIDITY failure (missing critical metric after
conversion, or non-positive liquidity) is recovered by excluding exactly
that row, leaving the rest of the result unchanged; but a row whose
conversion raises (a non-empty unparseable percentage cell) aborts the whole
normalization, which then yields an error and, through the pipeline wrapper,
an empty dataset. -/
theorem C7_amended_row_failures :
    (∀ (l₁ l₂ : List RawRow) (r : RawRow) (c : CleanRow),
        processRow r = .ok c → (criticalPresent c && liqPos c) = false →
        buscar_dados_fundamentus (l₁ ++ r :: l₂) = buscar_dados_fundamentus (l₁ ++ l₂))
  ∧ (∀ (l₁ l₂ : List RawRow) (r : RawRow),
        processRow r = .error () →
        buscar_dados_fundamentus (l₁ ++ r :: l₂) = .error ()) := by
  constructor
  · intro l₁ l₂ r c hpr hval
    unfold buscar_dados_fundamentus
    rw [mapExcept_append processRow l₁ (r :: l₂), mapExcept_append processRow l₁ l₂,
      mapExcept_cons processRow r l₂, hpr]
    cases h1 : mapExcept processRow l₁ <;> cases h2 : mapExcept processRow l₂ <;>
      simp only [Except.bind, Except.map]
    have hcf : (liqPos c && criticalPresent c) = false := by
      revert hval
      cases criticalPresent c <;> cases liqPos c <;> simp
    simp only [List.filter_filter]
    simp only [List.filter_append, List.filter_cons]
    simp [hcf]
  · intro l₁ l₂ r hpr
    unfold buscar_dados_fundamentus
    rw [mapExcept_append processRow l₁ (r :: l₂), mapExcept_cons processRow r l₂, hpr]
    cases h1 : mapExcept processRow l₁ <;> simp only [Except.bind, Except.map]

/-- C7, witness: dropping the zero-liquidity row rawBadLiq from the middle
of a table leaves the result exactly as if the row had never been there. -/
theorem C7_witness :
    buscar_dados_fundamentus ([rawGood] ++ rawBadLiq :: [rawGoodB])
      = buscar_dados_fundamentus ([rawGood] ++ [rawGoodB]) :=
  C7_amended_row_failures.1 [rawGood] [rawGoodB] rawBadLiq
    { cleanGood with TICKER := "DDDD11", LIQUIDEZ := some 0 }
    (by decide) (by decide)

/-! Claim C8: the pipeline boundary on fetch and parse failures. -/

/-- C8: a transport failure or a missing/non-conforming table makes the
pipeline return the empty dataset together with the descriptive message of
app.py line 57; refreshPipeline is a total function, so no exception crosses
the boundary; and the downstream filter and aggregation of an empty dataset
are the empty outputs, without any error. -/
theorem C8_error_boundary :
    (∀ m : String, refreshPipeline (.fetchError m) = ([], some (mensagemErro m)))
  ∧ (∀ m : String, refreshPipeline (.parseError m) = ([], some (mensagemErro m)))
  ∧ (∀ c : FilterCriteria, df_filtrado [] c = [])
  ∧ analise_segmento ([] : List CleanRow) = [] :=
  ⟨fun _ => rfl, fun _ => rfl, fun _ => rfl, rfl⟩

/-! Claim C9: ticker uniqueness after normalization. -/

/-- C9, counterexample.  The Normalizer performs no deduplication: a raw
table holding two valid rows with the same ticker and different segments
normalizes to two distinct records sharing one ticker, so ticker uniqueness
is not an invariant the Normalizer establishes. -/
theorem C9_counterexample :
    buscar_dados_fundamentus [rawGood, rawGoodDup] = .ok [cleanGood, cleanGoodDup]
  ∧ cleanGood.TICKER = cleanGoodDup.TICKER ∧ cleanGood ≠ cleanGoodDup := by
  refine ⟨by decide, rfl, by decide⟩

/-- C9, amended: the Normalizer PRESERVES ticker uniqueness rather than
establishing it: rows pass through with their ticker unchanged and are only
ever dropped, so if the raw table has pairwise distinct tickers (as the
upstream source lists each fund once), the normalized dataset does too. -/
theorem C9_amended_ticker_nodup (rows : List RawRow) (out : List CleanRow)
    (h : buscar_dados_fundamentus rows = .ok out)
    (hnd : (rows.map (·.TICKER)).Nodup) :
    (out.map (·.TICKER)).Nodup := by
  obtain ⟨df0, hm, hout⟩ := buscar_ok_inv h
  subst hout
  have hsub : (((df0.filter criticalPresent).filter liqPos).map (·.TICKER))
      <+ df0.map (·.TICKER) :=
    ((List.filter_sublist _).trans (List.filter_sublist _)).map _
  rw [mapExcept_ok_ticker hm] at hsub
  exact hnd.sublist hsub

/-- C9, witness at a two-row table with distinct tickers. -/
theorem C9_witness : (([cleanGood, cleanGoodB] : List CleanRow).map (·.TICKER)).Nodup :=
  C9_amended_ticker_nodup [rawGood, rawGoodB] [cleanGood, cleanGoodB]
    (by decide) (by decide)

/-! Claim C10: the dataset-derived default criteria accept everything. -/

/-- C10: filtering a non-empty dataset of valid rows with the default
slider values (dataset minimum for dy_min and liquidez_min, dataset maximum
for pvp_max and vacancia_max) keeps every record: because all four bounds
are inclusive, the output is a permutation of the dataset, the sort being
the only effect. -/
theorem C10_default_criteria_identity (df : List CleanRow) (_hne : df ≠ [])
    (hvalid : ∀ r ∈ df, criticalPresent r = true) :
    Perm (df_filtrado df (criteriaPadrao df)) df := by
  have hall : ∀ r ∈ df, filtroPred (criteriaPadrao df) r = true := by
    intro r hr
    have hv := hvalid r hr
    simp only [criticalPresent, Bool.and_eq_true] at hv
    obtain ⟨⟨⟨hdy, hpvp⟩, hvac⟩, hliq⟩ := hv
    cases hdyq : r.DIVIDEND_YIELD with
    | none => rw [hdyq] at hdy; cases hdy
    | some dy =>
      cases hpvpq : r.P_VP with
      | none => rw [hpvpq] at hpvp; cases hpvp
      | some pvp =>
        cases hvacq : r.VACANCIA_MEDIA with
        | none => rw [hvacq] at hvac; cases hvac
        | some vac =>
          cases hliqq : r.LIQUIDEZ with
          | none => rw [hliqq] at hliq; cases hliq
          | some liq =>
            simp only [filtroPred, cmpGe, cmpLe, hdyq, hpvpq, hvacq, hliqq,
              criteriaPadrao, Bool.and_eq_true, decide_eq_true_eq]
            refine ⟨⟨⟨?_, ?_⟩, ?_⟩, ?_⟩
            · exact colMin_le (List.mem_filterMap.mpr ⟨r, hr, hdyq⟩)
            · exact le_colMax (List.mem_filterMap.mpr ⟨r, hr, hpvpq⟩)
            · exact le_colMax (List.mem_filterMap.mpr ⟨r, hr, hvacq⟩)
            · exact colMin_le (List.mem_filterMap.mpr ⟨r, hr, hliqq⟩)
  unfold df_filtrado
  rw [List.filter_eq_self.mpr hall]
  exact sort_values_desc_perm dyKey df

/-- C10, witness on the two-row dataset. -/
theorem C10_witness :
    Perm (df_filtrado [crLogA, crShopB] (criteriaPadrao [crLogA, crShopB]))
      [crLogA, crShopB] :=
  C10_default_criteria_identity [crLogA, crShopB] (by decide) (by decide)

end Fundamentus
